import Mathlib

/-!
Verification development for `telegram_post_bot.py` (kp_kuban_bot).

The file shallowly embeds the publish pipeline (`post_article`), the
destination resolution of line 102, the feed poller (`auto_announce`),
the store queries used by `digest` and `send_report`, and the inline
query handler.  External collaborators (HTTP fetch, HTML extraction,
the text-rewrite model, and the transport's send calls) are passed in
as function-valued parameters, exactly at the interface the source
uses them.
-/

set_option maxHeartbeats 1000000

namespace Bot

/-- The dictionary returned by `parse_article`: title, lead, body text
(paragraphs already joined by blank lines) and the list of image URLs.
Missing pieces degrade to empty strings / the empty list. -/
structure Article where
  title : String
  lead : String
  text : String
  images : List String
  deriving DecidableEq, Repr

/-- One row of the `posts` table as inserted by `post_article`:
`(chat_id, date, url)`.  `chat_id` is nullable because the resolved
Python `target` may be `None`. `date` is the string produced by
`datetime.utcnow().isoformat()`. -/
structure Post where
  chat_id : Option Int
  date : String
  url : String
  deriving DecidableEq, Repr

/-- Transport calls performed by one `post_article` invocation, in
order. -/
inductive Effect where
  | sentPhoto (chatId : Option Int) (photo : String)
  | sentMessage (chatId : Option Int) (text : String)
  deriving DecidableEq, Repr

/-- The state of `context.job` as seen by `hasattr(context, 'job')` and
`context.job.chat_id` on line 102:
* `absent`  — the context object has no `job` attribute;
* `noneJob` — the attribute exists but is Python `None` (handler
  contexts), so `.chat_id` raises `AttributeError`;
* `someJob c` — the attribute is a `Job` whose `chat_id` is `c`
  (`none` when the job was scheduled without a chat id). -/
inductive JobAttr where
  | absent
  | noneJob
  | someJob (chatId : Option Int)
  deriving DecidableEq, Repr

/-- The pieces of the `context` object that line 102 reads:
the `job` attribute and `bot_data['last_chat_id']` (absent ↦ `none`). -/
structure Ctx where
  jobAttr : JobAttr
  lastChatId : Option Int
  deriving DecidableEq, Repr

/-- External collaborators, at the exact interface the source uses:
`fetch_html` (requests), `parse_article`'s soup logic, the Flan-T5
`generate_styled_post` call, and the bot's send calls.  Failures are
`Except.error` (a Python exception). -/
structure Env where
  fetch : String → Except String String
  parse : String → Article
  rewrite : String → Except String String
  sendPhoto : Option Int → String → Except String Unit
  sendMessage : Option Int → String → Except String Unit

/-- Python `hasattr(context, 'job')`. -/
def hasJobAttr : JobAttr → Bool
  | .absent => false
  | .noneJob => true
  | .someJob _ => true

/-- Reading `context.job.chat_id`: raises `AttributeError` when `context.job`
is `None`, and when the attribute is missing entirely. -/
def jobChatId : JobAttr → Except String (Option Int)
  | .absent => .error "AttributeError"
  | .noneJob => .error "AttributeError"
  | .someJob c => .ok c

/-- Line 102 of the source, with Python's operator precedence:
`(chat_id or context.job.chat_id) if hasattr(context, 'job') else
context.application.bot_data.get('last_chat_id', ADMIN_CHAT_ID)`.
`chat_id` is falsy when it is `None` or `0`. -/
def resolveTarget (admin : Int) (chatId : Option Int) (ctx : Ctx) :
    Except String (Option Int) :=
  if hasJobAttr ctx.jobAttr then
    match chatId with
    | some c => if c = 0 then jobChatId ctx.jobAttr else .ok (some c)
    | none => jobChatId ctx.jobAttr
  else
    .ok (some (ctx.lastChatId.getD admin))

/-- Result of one call that may mutate the store: the transport calls
that happened, the store afterwards, and the propagated exception if
any.  The insert into `posts` only happens on the success path, so on
error the store is unchanged. -/
structure Outcome where
  effects : List Effect
  store : List Post
  error : Option String
  deriving DecidableEq, Repr

/-- Line 95: `combined = f"{title}\n\n{lead}\n\n{text}"`. -/
def combinedText (a : Article) : String :=
  a.title ++ "\n\n" ++ a.lead ++ "\n\n" ++ a.text

/-- Lines 96–100: the rewrite call with its catch-all fallback to the
combined text. -/
def styledText (env : Env) (a : Article) : String :=
  match env.rewrite (combinedText a) with
  | .ok s => s
  | .error _ => combinedText a

/-- Function `post_article(context, url, chat_id)` (lines 92–112): fetch (no
fallback), parse, compose the combined text, rewrite with catch-all
fallback to the combined text, resolve the target, optionally send the
first image, send the text, then insert `(target, now, url)` into
`posts`. -/
def post_article (env : Env) (admin : Int) (ctx : Ctx) (url : String)
    (chatId : Option Int) (now : String) (store : List Post) : Outcome :=
  match env.fetch url with
  | .error e => ⟨[], store, some e⟩
  | .ok html =>
    let data := env.parse html
    let styled := styledText env data
    match resolveTarget admin chatId ctx with
    | .error e => ⟨[], store, some e⟩
    | .ok target =>
      match data.images with
      | img :: _ =>
        match env.sendPhoto target img with
        | .error e => ⟨[], store, some e⟩
        | .ok _ =>
          match env.sendMessage target styled with
          | .error e => ⟨[Effect.sentPhoto target img], store, some e⟩
          | .ok _ =>
            ⟨[Effect.sentPhoto target img, Effect.sentMessage target styled],
              store ++ [⟨target, now, url⟩], none⟩
      | [] =>
        match env.sendMessage target styled with
        | .error e => ⟨[], store, some e⟩
        | .ok _ =>
          ⟨[Effect.sentMessage target styled],
            store ++ [⟨target, now, url⟩], none⟩

/-- The loop body of `auto_announce` (lines 157–163): for each entry in
order, skip it when a row with the same `url` exists, otherwise call
`post_article` with no `chat_id`.  An exception from `post_article`
propagates out of the loop (there is no try/except around it), so the
remaining entries of that run are not processed. -/
def auto_announce_go (env : Env) (admin : Int) (ctx : Ctx) (now : String) :
    List String → List Post → List Effect → Outcome
  | [], store, eff => ⟨eff, store, none⟩
  | url :: rest, store, eff =>
    if store.any (fun r => decide (r.url = url)) then
      auto_announce_go env admin ctx now rest store eff
    else
      let o := post_article env admin ctx url none now store
      match o.error with
      | some e => ⟨eff ++ o.effects, o.store, some e⟩
      | none => auto_announce_go env admin ctx now rest o.store (eff ++ o.effects)

/-- Function `auto_announce` (lines 155–163): take the first 5 feed entries and
run the dedup-then-publish loop over them. -/
def auto_announce (env : Env) (admin : Int) (ctx : Ctx) (now : String)
    (entries : List String) (store : List Post) : Outcome :=
  auto_announce_go env admin ctx now (entries.take 5) store []

/-- Byte-wise (here: character-wise, the strings are ASCII) strict
comparison, as SQLite's BINARY collation compares TEXT values with
`memcmp` and then length. -/
def charListLt : List Char → List Char → Bool
  | [], [] => false
  | [], _ :: _ => true
  | _ :: _, [] => false
  | a :: as, b :: bs => decide (a < b) || (decide (a = b) && charListLt as bs)

/-- SQLite TEXT `<` on the two strings. -/
def strLt (a b : String) : Bool := charListLt a.data b.data

/-- Query `SELECT COUNT(*) FROM posts WHERE date>?` (send_report, lines
167–169). -/
def countWindow (store : List Post) (since : String) : Nat :=
  (store.filter (fun r => strLt since r.date)).length

/-- Descending order on rows by `date` (SQL `ORDER BY date DESC`):
`a` precedes `b` when `a.date` is not strictly below `b.date`. -/
def dateDesc (a b : Post) : Prop := strLt a.date b.date = false

instance : DecidableRel dateDesc := fun a b => by
  unfold dateDesc; infer_instance

/-- Query `SELECT ... FROM posts WHERE date>? ORDER BY date DESC` without the
LIMIT: the rows with `date > since`, sorted most-recent-first. -/
def queryWindow (store : List Post) (since : String) : List Post :=
  List.insertionSort dateDesc (store.filter (fun r => strLt since r.date))

/-- The rows fetched by `digest` (lines 148–151): the window query with
`LIMIT 5`. -/
def digest_rows (store : List Post) (since : String) : List Post :=
  (queryWindow store since).take 5

/-- The reply text built by `digest` (line 152). -/
def digest_text (store : List Post) (since : String) : String :=
  "Топ-5 постов за неделю:\n" ++
    String.intercalate "\n" ((digest_rows store since).map (fun r => "- " ++ r.url))

/-- The message composed by `send_report` (line 170). -/
def send_report_msg (store : List Post) (since : String) : String :=
  "За прошлую неделю бот опубликовал " ++ toString (countWindow store since) ++ " постов."

/-- One inline suggestion as built by `inline_query` (lines 133–139):
the result id, its title, and the `InputTextMessageContent` text. -/
structure InlineResult where
  rid : String
  title : String
  content : String
  deriving DecidableEq, Repr

/-- Handler `inline_query` (lines 128–140): when the query does not start with
`"http"` the handler returns without answering (`none`); otherwise it
answers with the single suggestion whose message content is the query
itself. -/
def inline_query_answer (q : String) : Option (List InlineResult) :=
  if "http".data.isPrefixOf q.data then
    some [⟨"1", "Сгенерировать пост", q⟩]
  else
    none

/-- Concrete collaborators for witnesses: every call succeeds, the
extractor finds no images. -/
def envOk : Env where
  fetch := fun _ => .ok "html"
  parse := fun _ => ⟨"Заголовок", "Лид", "Текст", []⟩
  rewrite := fun s => .ok ("✨ " ++ s)
  sendPhoto := fun _ _ => .ok ()
  sendMessage := fun _ _ => .ok ()

/-- Concrete collaborators where the rewrite model raises. -/
def envRewriteFails : Env :=
  { envOk with rewrite := fun _ => .error "RewriteError" }

/-- Concrete collaborators where the page has one image and the
photo-send call fails. -/
def envPhotoFails : Env :=
  { envOk with
    parse := fun _ => ⟨"Заголовок", "Лид", "Текст", ["https://kuban.kp.ru/i.jpg"]⟩
    sendPhoto := fun _ _ => .error "DeliveryError" }

/-- Concrete collaborators where fetching `a.html` raises and every
other URL succeeds. -/
def envFetchAFails : Env :=
  { envOk with
    fetch := fun u => if u = "a.html" then .error "FetchError" else .ok "html" }

/-- Padded base-10 digits of `n`, most significant first, exactly `w`
of them (the zero-padded fields of `datetime.isoformat()`). -/
def padDigits : Nat → Nat → List Nat
  | 0, _ => []
  | w + 1, n => n / 10 ^ w :: padDigits w (n % 10 ^ w)

/-- The ASCII character of one decimal digit. -/
def digitChar (d : Nat) : Char := Char.ofNat (48 + d)

/-- Number `n` printed as exactly `w` decimal characters. -/
def padChars (w n : Nat) : List Char := (padDigits w n).map digitChar

/-- A UTC wall-clock instant as `datetime.utcnow()` yields it. -/
structure Timestamp where
  year : Nat
  month : Nat
  day : Nat
  hour : Nat
  minute : Nat
  second : Nat
  microsecond : Nat
  deriving DecidableEq, Repr

/-- The field ranges of a Python `datetime` value. -/
def Timestamp.IsValid (t : Timestamp) : Prop :=
  1 ≤ t.year ∧ t.year ≤ 9999 ∧ 1 ≤ t.month ∧ t.month ≤ 12 ∧
    1 ≤ t.day ∧ t.day ≤ 31 ∧ t.hour ≤ 23 ∧ t.minute ≤ 59 ∧
    t.second ≤ 59 ∧ t.microsecond ≤ 999999

instance : DecidablePred Timestamp.IsValid := fun t => by
  unfold Timestamp.IsValid; infer_instance

/-- Python `datetime.isoformat()`: `YYYY-MM-DDTHH:MM:SS`, with `.ffffff`
appended only when the microsecond field is nonzero. -/
def isoChars (t : Timestamp) : List Char :=
  padChars 4 t.year ++ ('-' :: (padChars 2 t.month ++ ('-' :: (padChars 2 t.day ++
    ('T' :: (padChars 2 t.hour ++ (':' :: (padChars 2 t.minute ++
      (':' :: (padChars 2 t.second ++
        (if t.microsecond = 0 then []
          else '.' :: padChars 6 t.microsecond)))))))))))

/-- The `date` string stored by `post_article`. -/
def isoformat (t : Timestamp) : String := String.mk (isoChars t)

/-- Lexicographic strict order on lists of naturals. -/
def natLexLt : List Nat → List Nat → Bool
  | [], [] => false
  | [], _ :: _ => true
  | _ :: _, [] => false
  | a :: as, b :: bs => decide (a < b) || (decide (a = b) && natLexLt as bs)

/-- Chronological order on instants: compare the fields from coarsest
to finest. -/
def chronoLt (t1 t2 : Timestamp) : Bool :=
  natLexLt
    [t1.year, t1.month, t1.day, t1.hour, t1.minute, t1.second, t1.microsecond]
    [t2.year, t2.month, t2.day, t2.hour, t2.minute, t2.second, t2.microsecond]

/-- A small concrete store for witnesses. -/
def demoStore : List Post :=
  [⟨some 1, "2024-01-02T10:00:00", "a.html"⟩,
    ⟨some 2, "2024-01-03T10:00:00.500000", "b.html"⟩,
    ⟨some 3, "2023-12-20T10:00:00", "c.html"⟩]

/-- A handler context: `context.job` is `None`, a last-known chat id is
stored in `bot_data`. -/
def ctxHandler : Ctx := ⟨.noneJob, some 7⟩

/-- A job context as `run_repeating` creates it for `auto_announce`:
`context.job` is a `Job` scheduled without a chat id. -/
def ctxPoller : Ctx := ⟨.someJob none, some 7⟩

end Bot

namespace Bot

/-! ## Basic facts about `post_article` -/

/-- Function `post_article` either succeeds and appends exactly the row
`(target, now, url)`, or raises and leaves the store unchanged. -/
theorem post_article_store_spec (env : Env) (admin : Int) (ctx : Ctx)
    (url : String) (chatId : Option Int) (now : String) (store : List Post) :
    ((post_article env admin ctx url chatId now store).error = none ∧
      ∃ t, (post_article env admin ctx url chatId now store).store
        = store ++ [⟨t, now, url⟩]) ∨
    ((post_article env admin ctx url chatId now store).error ≠ none ∧
      (post_article env admin ctx url chatId now store).store = store) := by
  cases hf : env.fetch url with
  | error e => right; simp [post_article, hf]
  | ok html =>
    cases ht : resolveTarget admin chatId ctx with
    | error e => right; simp [post_article, hf, ht]
    | ok target =>
      cases himg : (env.parse html).images with
      | nil =>
        cases hm : env.sendMessage target (styledText env (env.parse html)) with
        | error e => right; simp [post_article, hf, ht, himg, hm]
        | ok u => left; simp [post_article, hf, ht, himg, hm]
      | cons img imgs =>
        cases hp : env.sendPhoto target img with
        | error e => right; simp [post_article, hf, ht, himg, hp]
        | ok u =>
          cases hm : env.sendMessage target (styledText env (env.parse html)) with
          | error e => right; simp [post_article, hf, ht, himg, hp, hm]
          | ok v => left; simp [post_article, hf, ht, himg, hp, hm]

/-- On an exception the store is unchanged. -/
theorem post_article_error_store (env : Env) (admin : Int) (ctx : Ctx)
    (url : String) (chatId : Option Int) (now : String) (store : List Post)
    (e : String)
    (h : (post_article env admin ctx url chatId now store).error = some e) :
    (post_article env admin ctx url chatId now store).store = store := by
  rcases post_article_store_spec env admin ctx url chatId now store with
    ⟨h1, _⟩ | ⟨_, h2⟩
  · rw [h1] at h; cases h
  · exact h2

/-- On success the store grows by exactly the row for `url`. -/
theorem post_article_ok_store (env : Env) (admin : Int) (ctx : Ctx)
    (url : String) (chatId : Option Int) (now : String) (store : List Post)
    (h : (post_article env admin ctx url chatId now store).error = none) :
    ∃ t, (post_article env admin ctx url chatId now store).store
      = store ++ [⟨t, now, url⟩] := by
  rcases post_article_store_spec env admin ctx url chatId now store with
    ⟨_, h1⟩ | ⟨h2, _⟩
  · exact h1
  · exact absurd h h2

/-- When the fetch and the target resolution succeed and the transport
accepts every call, `post_article` succeeds and appends its row. -/
theorem post_article_sends_ok (env : Env) (admin : Int) (ctx : Ctx)
    (url : String) (chatId : Option Int) (now : String) (store : List Post)
    (html : String) (target : Option Int)
    (hf : env.fetch url = .ok html)
    (ht : resolveTarget admin chatId ctx = .ok target)
    (hp : ∀ p, env.sendPhoto target p = .ok ())
    (hm : ∀ m, env.sendMessage target m = .ok ()) :
    (post_article env admin ctx url chatId now store).error = none ∧
    (post_article env admin ctx url chatId now store).store
      = store ++ [⟨target, now, url⟩] := by
  cases himg : (env.parse html).images with
  | nil => simp [post_article, hf, ht, himg, hm]
  | cons img imgs => simp [post_article, hf, ht, himg, hp, hm]

/-! ## Claim theorems -/

/-- Claim C1: the claimed resolution order (explicit override, else
last-known context, else admin fallback) is not what line 102 computes.
Because the conditional expression binds looser than `or`, the line is
`(chat_id or context.job.chat_id) if hasattr(context, 'job') else
bot_data.get('last_chat_id', ADMIN_CHAT_ID)`.  Evaluating the model:
with a handler context (`job` attribute present but `None`, last-known
chat 7, admin 42) an explicit override 555 is indeed delivered to 555
(the chosen-inline-selection part of the claim), but with no override
the same context raises `AttributeError` instead of falling back to
the last-known chat 7, and a context without a `job` attribute ignores
the explicit override 555 and resolves to the last-known chat 7. -/
theorem C1_destination_resolution_eval :
    resolveTarget 42 (some 555) ctxHandler = .ok (some 555) ∧
    resolveTarget 42 none ctxHandler = .error "AttributeError" ∧
    resolveTarget 42 (some 555) (⟨.absent, some 7⟩ : Ctx) = .ok (some 7) :=
  ⟨rfl, rfl, rfl⟩

/-- Claim C6: when the fetch step fails, the failure propagates out of
`post_article` with no fallback: no photo or text is delivered and the
store is unchanged. -/
theorem C6_fetch_error_propagates (env : Env) (admin : Int) (ctx : Ctx)
    (url : String) (chatId : Option Int) (now : String) (store : List Post)
    (e : String) (h : env.fetch url = .error e) :
    post_article env admin ctx url chatId now store = ⟨[], store, some e⟩ := by
  simp [post_article, h]

/-- Witness for C6 at a concrete failing fetch. -/
theorem C6_fetch_error_propagates_witness :
    envFetchAFails.fetch "a.html" = .error "FetchError" ∧
    post_article envFetchAFails 42 ctxPoller "a.html" none "2024-01-01T00:00:00" []
      = ⟨[], [], some "FetchError"⟩ :=
  ⟨rfl, C6_fetch_error_propagates envFetchAFails 42 ctxPoller "a.html" none
    "2024-01-01T00:00:00" [] "FetchError" rfl⟩

/-- Claim C3: when the rewrite step fails, `post_article` catches the
failure, delivers exactly the unmodified combined text (title, blank
line, lead, blank line, body) through the text-send call, and still
appends exactly one store record. -/
theorem C3_rewrite_fallback (env : Env) (admin : Int) (ctx : Ctx)
    (url : String) (chatId : Option Int) (now : String) (store : List Post)
    (html : String) (target : Option Int) (e : String)
    (hf : env.fetch url = .ok html)
    (hr : env.rewrite (combinedText (env.parse html)) = .error e)
    (ht : resolveTarget admin chatId ctx = .ok target)
    (hp : ∀ p, env.sendPhoto target p = .ok ())
    (hm : ∀ m, env.sendMessage target m = .ok ()) :
    (post_article env admin ctx url chatId now store).error = none ∧
    (post_article env admin ctx url chatId now store).effects.getLast?
      = some (.sentMessage target
          ((env.parse html).title ++ "\n\n" ++ (env.parse html).lead ++ "\n\n"
            ++ (env.parse html).text)) ∧
    (post_article env admin ctx url chatId now store).store
      = store ++ [⟨target, now, url⟩] := by
  have hst : styledText env (env.parse html) = combinedText (env.parse html) := by
    simp [styledText, hr]
  cases himg : (env.parse html).images with
  | nil => simp [post_article, hf, ht, himg, hm, hst, combinedText]
  | cons img imgs => simp [post_article, hf, ht, himg, hp, hm, hst, combinedText]

/-- Witness for C3 at a concrete always-failing rewriter. -/
theorem C3_rewrite_fallback_witness :
    envRewriteFails.fetch "x.html" = .ok "html" ∧
    envRewriteFails.rewrite (combinedText (envRewriteFails.parse "html"))
      = .error "RewriteError" ∧
    resolveTarget 42 none ctxPoller = .ok none ∧
    ((post_article envRewriteFails 42 ctxPoller "x.html" none "t0" []).error = none ∧
      (post_article envRewriteFails 42 ctxPoller "x.html" none "t0" []).effects.getLast?
        = some (.sentMessage none
            ((envRewriteFails.parse "html").title ++ "\n\n"
              ++ (envRewriteFails.parse "html").lead ++ "\n\n"
              ++ (envRewriteFails.parse "html").text)) ∧
      (post_article envRewriteFails 42 ctxPoller "x.html" none "t0" []).store
        = [] ++ [⟨none, "t0", "x.html"⟩]) :=
  ⟨rfl, rfl, rfl,
    C3_rewrite_fallback envRewriteFails 42 ctxPoller "x.html" none "t0" []
      "html" none "RewriteError" rfl rfl rfl (fun _ => rfl) (fun _ => rfl)⟩

/-- Claim C7: with a non-empty image list, exactly the first image URL
goes out through the photo-send call before the text; a photo-send
failure is not caught, so it aborts the call: no text is sent and no
record is appended. -/
theorem C7_photo_first_and_fragile (env : Env) (admin : Int) (ctx : Ctx)
    (url : String) (chatId : Option Int) (now : String) (store : List Post)
    (html : String) (target : Option Int) (img : String) (imgs : List String)
    (hf : env.fetch url = .ok html)
    (himg : (env.parse html).images = img :: imgs)
    (ht : resolveTarget admin chatId ctx = .ok target) :
    (∀ e, env.sendPhoto target img = .error e →
      post_article env admin ctx url chatId now store = ⟨[], store, some e⟩) ∧
    (env.sendPhoto target img = .ok () →
      (post_article env admin ctx url chatId now store).effects.head?
        = some (.sentPhoto target img)) := by
  constructor
  · intro e he
    simp [post_article, hf, ht, himg, he]
  · intro hok
    cases hm : env.sendMessage target (styledText env (env.parse html)) with
    | error e2 => simp [post_article, hf, ht, himg, hok, hm]
    | ok u => simp [post_article, hf, ht, himg, hok, hm]

/-- The dedup-then-publish loop only appends rows whose `url` was not
in the store at the moment of the append, so the appended rows carry
pairwise distinct urls, none of which was present before the run. -/
theorem auto_announce_go_new (env : Env) (admin : Int) (ctx : Ctx) (now : String)
    (entries : List String) :
    ∀ (store : List Post) (eff : List Effect),
      ∃ new, (auto_announce_go env admin ctx now entries store eff).store = store ++ new ∧
        new.Pairwise (fun a b => a.url ≠ b.url) ∧
        ∀ r ∈ new, ∀ s ∈ store, s.url ≠ r.url := by
  induction entries with
  | nil =>
    intro store eff
    exact ⟨[], by simp [auto_announce_go], .nil, by simp⟩
  | cons url rest ih =>
    intro store eff
    by_cases hg : store.any (fun r => decide (r.url = url)) = true
    · obtain ⟨new, h1, h2, h3⟩ := ih store eff
      exact ⟨new, by simpa [auto_announce_go, hg] using h1, h2, h3⟩
    · have hg' : store.any (fun r => decide (r.url = url)) = false := by
        simpa using hg
      have hnot : ∀ s ∈ store, s.url ≠ url := by
        intro s hs hequ
        exact hg (List.any_eq_true.mpr ⟨s, hs, by simp [hequ]⟩)
      cases herr : (post_article env admin ctx url none now store).error with
      | some e =>
        have hst := post_article_error_store env admin ctx url none now store e herr
        refine ⟨[], ?_, .nil, by simp⟩
        simp [auto_announce_go, hg', herr, hst]
      | none =>
        obtain ⟨t, hst⟩ := post_article_ok_store env admin ctx url none now store herr
        obtain ⟨new, h1, h2, h3⟩ :=
          ih (post_article env admin ctx url none now store).store
            (eff ++ (post_article env admin ctx url none now store).effects)
        refine ⟨(⟨t, now, url⟩ : Post) :: new, ?_, ?_, ?_⟩
        · have hgo : (auto_announce_go env admin ctx now (url :: rest) store eff).store
              = (auto_announce_go env admin ctx now rest
                  (post_article env admin ctx url none now store).store
                  (eff ++ (post_article env admin ctx url none now store).effects)).store := by
            simp [auto_announce_go, hg', herr]
          rw [hgo, h1, hst]
          simp
        · refine List.Pairwise.cons ?_ h2
          intro b hb
          have := h3 b hb ⟨t, now, url⟩ (by rw [hst]; simp)
          exact this
        · intro r hr s hs
          rcases List.mem_cons.mp hr with h | h
          · subst h
            exact hnot s hs
          · exact h3 r h s (by rw [hst]; exact List.mem_append_left _ hs)

/-- Claim C2: a feed entry whose URL is already in the store is skipped
(no second row with that url appears), and the rows a poller run
appends carry pairwise distinct urls none of which was in the store —
the poller path never creates two rows sharing a url. -/
theorem C2_poller_dedup (env : Env) (admin : Int) (ctx : Ctx) (now : String)
    (entries : List String) (store : List Post) (u : String)
    (h : ∃ r ∈ store, r.url = u) :
    ((auto_announce env admin ctx now entries store).store.filter
        (fun r => decide (r.url = u))).length
      = (store.filter (fun r => decide (r.url = u))).length ∧
    ∃ new, (auto_announce env admin ctx now entries store).store = store ++ new ∧
      new.Pairwise (fun a b => a.url ≠ b.url) ∧
      ∀ r ∈ new, ∀ s ∈ store, s.url ≠ r.url := by
  obtain ⟨new, h1, h2, h3⟩ :=
    auto_announce_go_new env admin ctx now (entries.take 5) store []
  have h1' : (auto_announce env admin ctx now entries store).store = store ++ new := h1
  refine ⟨?_, new, h1', h2, h3⟩
  rw [h1', List.filter_append]
  obtain ⟨r0, hr0, hru⟩ := h
  have hempty : new.filter (fun r => decide (r.url = u)) = [] := by
    rw [List.filter_eq_nil_iff]
    intro r hr
    simp only [decide_eq_true_eq]
    intro he
    exact h3 r hr r0 hr0 (by rw [hru, he])
  rw [hempty]
  simp

/-- Witness for C2: the store already holds `u.html`; a run whose feed
offers `u.html` again appends nothing with that url. -/
theorem C2_poller_dedup_witness :
    ((auto_announce envOk 42 ctxPoller "t0" ["u.html"]
        [(⟨some 5, "s0", "u.html"⟩ : Post)]).store.filter
        (fun r => decide (r.url = "u.html"))).length
      = ([(⟨some 5, "s0", "u.html"⟩ : Post)].filter
          (fun r => decide (r.url = "u.html"))).length ∧
    ∃ new, (auto_announce envOk 42 ctxPoller "t0" ["u.html"]
        [(⟨some 5, "s0", "u.html"⟩ : Post)]).store
        = [(⟨some 5, "s0", "u.html"⟩ : Post)] ++ new ∧
      new.Pairwise (fun a b => a.url ≠ b.url) ∧
      ∀ r ∈ new, ∀ s ∈ [(⟨some 5, "s0", "u.html"⟩ : Post)], s.url ≠ r.url :=
  C2_poller_dedup envOk 42 ctxPoller "t0" ["u.html"]
    [(⟨some 5, "s0", "u.html"⟩ : Post)] "u.html"
    ⟨⟨some 5, "s0", "u.html"⟩, by simp, rfl⟩

/-- Claim C4 (amended): entries are processed sequentially, but a
failure publishing one entry propagates out of `auto_announce` (there
is no per-entry try/except), so the remaining entries of that run are
not processed and nothing further is appended. -/
theorem C4_failure_halts_run (env : Env) (admin : Int) (ctx : Ctx) (now : String)
    (u : String) (rest : List String) (store : List Post) (e : String)
    (hnew : store.any (fun r => decide (r.url = u)) = false)
    (herr : (post_article env admin ctx u none now store).error = some e) :
    auto_announce env admin ctx now (u :: rest) store =
      ⟨(post_article env admin ctx u none now store).effects, store, some e⟩ := by
  have hst := post_article_error_store env admin ctx u none now store e herr
  simp [auto_announce, auto_announce_go, hnew, herr, hst]

/-- Counterexample to C4 as stated: with a feed `[a.html, b.html]`
where fetching `a.html` raises and `b.html` would publish fine, the
run stops at `a.html`: no row for `b.html` is ever appended, even
though publishing `b.html` alone succeeds. -/
theorem C4_counterexample :
    (auto_announce envFetchAFails 42 ctxPoller "t0" ["a.html", "b.html"] []).store
      = [] ∧
    (auto_announce envFetchAFails 42 ctxPoller "t0" ["a.html", "b.html"] []).error
      = some "FetchError" ∧
    (post_article envFetchAFails 42 ctxPoller "b.html" none "t0" []).error = none := by
  refine ⟨?_, ?_, ?_⟩ <;> rfl

/-- Witness for the amended C4 at the same concrete run. -/
theorem C4_failure_halts_run_witness :
    (([] : List Post).any (fun r => decide (r.url = "a.html")) = false) ∧
    auto_announce envFetchAFails 42 ctxPoller "t0" ["a.html", "b.html"] [] =
      ⟨(post_article envFetchAFails 42 ctxPoller "a.html" none "t0" []).effects,
        [], some "FetchError"⟩ :=
  ⟨rfl, C4_failure_halts_run envFetchAFails 42 ctxPoller "t0" "a.html" ["b.html"]
    [] "FetchError" rfl rfl⟩

/-- Claim C5 (amended): from an empty store, a poller run over the feed
`[a.html, b.html]` appends exactly those two rows in order — but their
destination is the poller job's chat id, which `run_repeating` leaves
unset (`None`/NULL), not the admin fallback: with a job context,
line 102 evaluates `chat_id or context.job.chat_id` and the
`last_chat_id`/`ADMIN_CHAT_ID` fallback is unreachable. -/
theorem C5_two_records_null_destination (env : Env) (admin : Int) (ctx : Ctx)
    (now : String) (htmlA htmlB : String)
    (hja : ctx.jobAttr = .someJob none)
    (ha : env.fetch "a.html" = .ok htmlA)
    (hb : env.fetch "b.html" = .ok htmlB)
    (hp : ∀ t p, env.sendPhoto t p = .ok ())
    (hm : ∀ t m, env.sendMessage t m = .ok ()) :
    (auto_announce env admin ctx now ["a.html", "b.html"] []).store
      = [⟨none, now, "a.html"⟩, ⟨none, now, "b.html"⟩] ∧
    (auto_announce env admin ctx now ["a.html", "b.html"] []).error = none := by
  have htgt : resolveTarget admin none ctx = .ok none := by
    simp [resolveTarget, hja, hasJobAttr, jobChatId]
  have h1 := post_article_sends_ok env admin ctx "a.html" none now [] htmlA none
    ha htgt (hp none) (hm none)
  have h2 := post_article_sends_ok env admin ctx "b.html" none now
    ([] ++ [⟨none, now, "a.html"⟩]) htmlB none hb htgt (hp none) (hm none)
  simp only [List.nil_append] at h1 h2
  constructor
  · simp [auto_announce, auto_announce_go, h1.1, h1.2, h2.1, h2.2]
  · simp [auto_announce, auto_announce_go, h1.1, h1.2, h2.1, h2.2]

/-- Counterexample to C5 as stated: in the concrete run both appended
rows carry destination NULL, not the configured admin id 42. -/
theorem C5_counterexample :
    (auto_announce envOk 42 ctxPoller "t0" ["a.html", "b.html"] []).store.map
        (fun r => r.url) = ["a.html", "b.html"] ∧
    (auto_announce envOk 42 ctxPoller "t0" ["a.html", "b.html"] []).store.map
        (fun r => r.chat_id) = [none, none] ∧
    ¬ ∀ r ∈ (auto_announce envOk 42 ctxPoller "t0" ["a.html", "b.html"] []).store,
        r.chat_id = some 42 := by
  refine ⟨rfl, rfl, fun hall => ?_⟩
  exact absurd (hall ⟨none, "t0", "a.html"⟩ (by decide)) (by decide)

/-- Witness for the amended C5 at the concrete collaborators. -/
theorem C5_two_records_null_destination_witness :
    ctxPoller.jobAttr = .someJob none ∧
    ((auto_announce envOk 42 ctxPoller "t0" ["a.html", "b.html"] []).store
        = [⟨none, "t0", "a.html"⟩, ⟨none, "t0", "b.html"⟩] ∧
      (auto_announce envOk 42 ctxPoller "t0" ["a.html", "b.html"] []).error = none) :=
  ⟨rfl, C5_two_records_null_destination envOk 42 ctxPoller "t0" "html" "html"
    rfl rfl rfl (fun _ _ => rfl) (fun _ _ => rfl)⟩

/-- Witness for C7 at a concrete failing photo-send. -/
theorem C7_photo_first_and_fragile_witness :
    envPhotoFails.fetch "x.html" = .ok "html" ∧
    (envPhotoFails.parse "html").images = "https://kuban.kp.ru/i.jpg" :: [] ∧
    resolveTarget 42 none ctxPoller = .ok none ∧
    post_article envPhotoFails 42 ctxPoller "x.html" none "t0" []
      = ⟨[], [], some "DeliveryError"⟩ :=
  ⟨rfl, rfl, rfl,
    (C7_photo_first_and_fragile envPhotoFails 42 ctxPoller "x.html" none "t0" []
      "html" none "https://kuban.kp.ru/i.jpg" [] rfl rfl rfl).1 "DeliveryError" rfl⟩

/-- Claim C10: a query not starting with `"http"` gets no answer at
all; a query starting with `"http"` gets exactly one suggestion whose
message content is the query text unchanged. -/
theorem C10_inline_query_gate (q : String) :
    ("http".data.isPrefixOf q.data = false → inline_query_answer q = none) ∧
    ("http".data.isPrefixOf q.data = true →
      ∃ l, inline_query_answer q = some l ∧ l.length = 1 ∧
        ∀ r ∈ l, r.content = q) := by
  constructor
  · intro h
    simp [inline_query_answer, h]
  · intro h
    refine ⟨[⟨"1", "Сгенерировать пост", q⟩], by simp [inline_query_answer, h],
      rfl, ?_⟩
    intro r hr
    rw [List.mem_singleton] at hr
    subst hr
    rfl

/-- Witness for C10, one input per branch. -/
theorem C10_inline_query_gate_witness :
    inline_query_answer "привет" = none ∧
    (∃ l, inline_query_answer "http://a" = some l ∧ l.length = 1 ∧
      ∀ r ∈ l, r.content = "http://a") :=
  ⟨(C10_inline_query_gate "привет").1 (by decide),
    (C10_inline_query_gate "http://a").2 (by decide)⟩

/-! ## Order facts about the SQL TEXT comparison -/

theorem charListLt_irrefl (l : List Char) : charListLt l l = false := by
  induction l with
  | nil => rfl
  | cons c cs ih => simp [charListLt, ih, lt_irrefl]

theorem charListLt_trans {a : List Char} : ∀ {b c : List Char},
    charListLt a b = true → charListLt b c = true → charListLt a c = true := by
  induction a with
  | nil =>
    intro b c hab hbc
    cases b with
    | nil => simp [charListLt] at hab
    | cons y ys =>
      cases c with
      | nil => simp [charListLt] at hbc
      | cons z zs => rfl
  | cons x xs ih =>
    intro b c hab hbc
    cases b with
    | nil => simp [charListLt] at hab
    | cons y ys =>
      cases c with
      | nil => simp [charListLt] at hbc
      | cons z zs =>
        simp only [charListLt, Bool.or_eq_true, Bool.and_eq_true,
          decide_eq_true_eq] at hab hbc ⊢
        rcases hab with h1 | ⟨he1, hr1⟩
        · rcases hbc with h2 | ⟨he2, hr2⟩
          · exact .inl (lt_trans h1 h2)
          · exact .inl (by rw [← he2]; exact h1)
        · rcases hbc with h2 | ⟨he2, hr2⟩
          · exact .inl (by rw [he1]; exact h2)
          · exact .inr ⟨he1.trans he2, ih hr1 hr2⟩

theorem charListLt_connex : ∀ {a b : List Char},
    charListLt a b = false → charListLt b a = false → a = b := by
  intro a
  induction a with
  | nil =>
    intro b h1 h2
    cases b with
    | nil => rfl
    | cons y ys => simp [charListLt] at h1
  | cons x xs ih =>
    intro b h1 h2
    cases b with
    | nil => simp [charListLt] at h2
    | cons y ys =>
      simp only [charListLt, Bool.or_eq_false_iff, Bool.and_eq_false_iff,
        decide_eq_false_iff_not, decide_eq_true_eq] at h1 h2
      have hx : x = y :=
        le_antisymm (le_of_not_lt h2.1) (le_of_not_lt h1.1)
      subst hx
      have hr1 : charListLt xs ys = false := by
        rcases h1.2 with h | h
        · exact absurd rfl h
        · exact h
      have hr2 : charListLt ys xs = false := by
        rcases h2.2 with h | h
        · exact absurd rfl h
        · exact h
      rw [ih hr1 hr2]

/-- The `memcmp` order over two equal-length blocks followed by tails. -/
theorem charListLt_append (A : List Char) : ∀ (B l1 l2 : List Char),
    A.length = B.length →
    charListLt (A ++ l1) (B ++ l2)
      = (charListLt A B || (decide (A = B) && charListLt l1 l2)) := by
  induction A with
  | nil =>
    intro B l1 l2 hlen
    cases B with
    | nil => simp [charListLt]
    | cons b B => simp at hlen
  | cons a A ih =>
    intro B l1 l2 hlen
    cases B with
    | nil => simp at hlen
    | cons b B =>
      simp only [List.length_cons] at hlen
      simp only [List.cons_append, charListLt, List.append_eq]
      rw [ih B l1 l2 (by omega)]
      by_cases hab : a < b
      · simp [hab]
      · by_cases heq : a = b
        · subst heq
          by_cases hAB : A = B
          · subst hAB; simp [hab]
          · simp [hab, hAB, List.cons.injEq]
        · simp [hab, heq, List.cons.injEq]

theorem charListLt_cons_self (c : Char) (l1 l2 : List Char) :
    charListLt (c :: l1) (c :: l2) = charListLt l1 l2 := by
  simp [charListLt, lt_irrefl]

/-! ## Padded decimal blocks -/

theorem padDigits_length (w : Nat) : ∀ n, (padDigits w n).length = w := by
  induction w with
  | zero => intro n; rfl
  | succ w ih => intro n; simp [padDigits, ih]

theorem padChars_length (w n : Nat) : (padChars w n).length = w := by
  simp [padChars, padDigits_length]

theorem padChars_succ (w n : Nat) :
    padChars (w + 1) n = digitChar (n / 10 ^ w) :: padChars w (n % 10 ^ w) := rfl

theorem digitChar_lt_decide (a b : Nat) (ha : a < 10) (hb : b < 10) :
    decide (digitChar a < digitChar b) = decide (a < b) := by
  interval_cases a <;> interval_cases b <;> decide

theorem digitChar_eq_decide (a b : Nat) (ha : a < 10) (hb : b < 10) :
    decide (digitChar a = digitChar b) = decide (a = b) := by
  interval_cases a <;> interval_cases b <;> decide

theorem block_lt_iff (k q1 r1 q2 r2 : Nat) (hr1 : r1 < k) (hr2 : r2 < k) :
    k * q1 + r1 < k * q2 + r2 ↔ (q1 < q2 ∨ (q1 = q2 ∧ r1 < r2)) := by
  constructor
  · intro h
    rcases Nat.lt_trichotomy q1 q2 with hq | hq | hq
    · exact .inl hq
    · subst hq; exact .inr ⟨rfl, by omega⟩
    · exfalso
      have hm : k * q2 + k ≤ k * q1 := by
        have := Nat.mul_le_mul_left k (Nat.succ_le_of_lt hq)
        rw [Nat.mul_succ] at this
        exact this
      omega
  · intro h
    rcases h with hq | ⟨hq, hr⟩
    · have hm : k * q1 + k ≤ k * q2 := by
        have := Nat.mul_le_mul_left k (Nat.succ_le_of_lt hq)
        rw [Nat.mul_succ] at this
        exact this
      omega
    · subst hq; omega

theorem padChars_lt (w : Nat) : ∀ n m, n < 10 ^ w → m < 10 ^ w →
    charListLt (padChars w n) (padChars w m) = decide (n < m) := by
  induction w with
  | zero =>
    intro n m hn hm
    simp only [pow_zero] at hn hm
    have hn0 : n = 0 := by omega
    have hm0 : m = 0 := by omega
    subst hn0; subst hm0
    decide
  | succ w ih =>
    intro n m hn hm
    have hk : 0 < 10 ^ w := Nat.pow_pos (by norm_num)
    have hn' : n < 10 * 10 ^ w := by rw [pow_succ] at hn; omega
    have hm' : m < 10 * 10 ^ w := by rw [pow_succ] at hm; omega
    have hq1 : n / 10 ^ w < 10 := (Nat.div_lt_iff_lt_mul hk).mpr (by omega)
    have hq2 : m / 10 ^ w < 10 := (Nat.div_lt_iff_lt_mul hk).mpr (by omega)
    have hr1 : n % 10 ^ w < 10 ^ w := Nat.mod_lt _ hk
    have hr2 : m % 10 ^ w < 10 ^ w := Nat.mod_lt _ hk
    rw [padChars_succ, padChars_succ]
    show (decide (digitChar (n / 10 ^ w) < digitChar (m / 10 ^ w)) ||
      (decide (digitChar (n / 10 ^ w) = digitChar (m / 10 ^ w)) &&
        charListLt (padChars w (n % 10 ^ w)) (padChars w (m % 10 ^ w))))
      = decide (n < m)
    rw [digitChar_lt_decide _ _ hq1 hq2, digitChar_eq_decide _ _ hq1 hq2,
      ih _ _ hr1 hr2]
    have hlt := block_lt_iff (10 ^ w) (n / 10 ^ w) (n % 10 ^ w)
      (m / 10 ^ w) (m % 10 ^ w) hr1 hr2
    rw [Nat.div_add_mod, Nat.div_add_mod] at hlt
    by_cases h : n < m
    · rw [decide_eq_true h]
      rcases hlt.mp h with hq | ⟨hq, hr⟩
      · simp [hq]
      · simp [hq, hr]
    · rw [decide_eq_false h]
      have hnone : ¬ (n / 10 ^ w < m / 10 ^ w ∨
          (n / 10 ^ w = m / 10 ^ w ∧ n % 10 ^ w < m % 10 ^ w)) :=
        fun hh => h (hlt.mpr hh)
      have hq : ¬ n / 10 ^ w < m / 10 ^ w := fun hh => hnone (.inl hh)
      by_cases hqe : n / 10 ^ w = m / 10 ^ w
      · have hr : ¬ n % 10 ^ w < m % 10 ^ w := fun hh => hnone (.inr ⟨hqe, hh⟩)
        simp [hq, hqe, hr]
      · simp [hq, hqe]

theorem padChars_eq (w : Nat) : ∀ n m, n < 10 ^ w → m < 10 ^ w →
    (padChars w n = padChars w m ↔ n = m) := by
  induction w with
  | zero =>
    intro n m hn hm
    simp only [pow_zero] at hn hm
    have hn0 : n = 0 := by omega
    have hm0 : m = 0 := by omega
    subst hn0; subst hm0
    simp
  | succ w ih =>
    intro n m hn hm
    have hk : 0 < 10 ^ w := Nat.pow_pos (by norm_num)
    have hn' : n < 10 * 10 ^ w := by rw [pow_succ] at hn; omega
    have hm' : m < 10 * 10 ^ w := by rw [pow_succ] at hm; omega
    have hq1 : n / 10 ^ w < 10 := (Nat.div_lt_iff_lt_mul hk).mpr (by omega)
    have hq2 : m / 10 ^ w < 10 := (Nat.div_lt_iff_lt_mul hk).mpr (by omega)
    have hr1 : n % 10 ^ w < 10 ^ w := Nat.mod_lt _ hk
    have hr2 : m % 10 ^ w < 10 ^ w := Nat.mod_lt _ hk
    rw [padChars_succ, padChars_succ, List.cons.injEq]
    constructor
    · rintro ⟨hd, htl⟩
      have hq : n / 10 ^ w = m / 10 ^ w := by
        have := digitChar_eq_decide (n / 10 ^ w) (m / 10 ^ w) hq1 hq2
        rw [decide_eq_true hd] at this
        exact of_decide_eq_true this.symm
      have hr : n % 10 ^ w = m % 10 ^ w := (ih _ _ hr1 hr2).mp htl
      have e1 : 10 ^ w * (m / 10 ^ w) + m % 10 ^ w = n := by
        rw [← hq, ← hr]; exact Nat.div_add_mod n (10 ^ w)
      have e2 : 10 ^ w * (m / 10 ^ w) + m % 10 ^ w = m := Nat.div_add_mod m (10 ^ w)
      omega
    · intro h; subst h; exact ⟨rfl, rfl⟩

/-- Characterwise comparison of the optional `.ffffff` suffix agrees
with numeric comparison of the microsecond fields. -/
theorem micro_lt (us1 us2 : Nat) (h1 : us1 < 10 ^ 6) (h2 : us2 < 10 ^ 6) :
    charListLt (if us1 = 0 then [] else '.' :: padChars 6 us1)
      (if us2 = 0 then [] else '.' :: padChars 6 us2) = decide (us1 < us2) := by
  by_cases hz1 : us1 = 0 <;> by_cases hz2 : us2 = 0
  · subst hz1; subst hz2; simp [charListLt]
  · subst hz1
    simp [hz2, charListLt, Nat.pos_of_ne_zero hz2]
  · subst hz2
    simp [hz1, charListLt]
  · rw [if_neg hz1, if_neg hz2, charListLt_cons_self, padChars_lt 6 us1 us2 h1 h2]

/-- The key chronology fact: on valid instants, SQLite's byte
comparison of the two `isoformat` strings is exactly the chronological
comparison of the instants. -/
theorem iso_lt_eq_chronoLt (t1 t2 : Timestamp)
    (h1 : t1.IsValid) (h2 : t2.IsValid) :
    charListLt (isoChars t1) (isoChars t2) = chronoLt t1 t2 := by
  obtain ⟨hy1a, hy1b, hmo1a, hmo1b, hd1a, hd1b, hh1, hmi1, hs1, hus1⟩ := h1
  obtain ⟨hy2a, hy2b, hmo2a, hmo2b, hd2a, hd2b, hh2, hmi2, hs2, hus2⟩ := h2
  have p4 : (10 : Nat) ^ 4 = 10000 := by norm_num
  have p2 : (10 : Nat) ^ 2 = 100 := by norm_num
  have p6 : (10 : Nat) ^ 6 = 1000000 := by norm_num
  have by1 : t1.year < 10 ^ 4 := by omega
  have by2 : t2.year < 10 ^ 4 := by omega
  have bmo1 : t1.month < 10 ^ 2 := by omega
  have bmo2 : t2.month < 10 ^ 2 := by omega
  have bd1 : t1.day < 10 ^ 2 := by omega
  have bd2 : t2.day < 10 ^ 2 := by omega
  have bh1 : t1.hour < 10 ^ 2 := by omega
  have bh2 : t2.hour < 10 ^ 2 := by omega
  have bmi1 : t1.minute < 10 ^ 2 := by omega
  have bmi2 : t2.minute < 10 ^ 2 := by omega
  have bs1 : t1.second < 10 ^ 2 := by omega
  have bs2 : t2.second < 10 ^ 2 := by omega
  have bus1 : t1.microsecond < 10 ^ 6 := by omega
  have bus2 : t2.microsecond < 10 ^ 6 := by omega
  unfold isoChars chronoLt
  rw [charListLt_append (padChars 4 t1.year) (padChars 4 t2.year) _ _
      (by rw [padChars_length, padChars_length])]
  rw [padChars_lt 4 _ _ by1 by2]
  rw [decide_eq_decide.mpr (padChars_eq 4 _ _ by1 by2)]
  rw [charListLt_cons_self]
  rw [charListLt_append (padChars 2 t1.month) (padChars 2 t2.month) _ _
      (by rw [padChars_length, padChars_length])]
  rw [padChars_lt 2 _ _ bmo1 bmo2]
  rw [decide_eq_decide.mpr (padChars_eq 2 _ _ bmo1 bmo2)]
  rw [charListLt_cons_self]
  rw [charListLt_append (padChars 2 t1.day) (padChars 2 t2.day) _ _
      (by rw [padChars_length, padChars_length])]
  rw [padChars_lt 2 _ _ bd1 bd2]
  rw [decide_eq_decide.mpr (padChars_eq 2 _ _ bd1 bd2)]
  rw [charListLt_cons_self]
  rw [charListLt_append (padChars 2 t1.hour) (padChars 2 t2.hour) _ _
      (by rw [padChars_length, padChars_length])]
  rw [padChars_lt 2 _ _ bh1 bh2]
  rw [decide_eq_decide.mpr (padChars_eq 2 _ _ bh1 bh2)]
  rw [charListLt_cons_self]
  rw [charListLt_append (padChars 2 t1.minute) (padChars 2 t2.minute) _ _
      (by rw [padChars_length, padChars_length])]
  rw [padChars_lt 2 _ _ bmi1 bmi2]
  rw [decide_eq_decide.mpr (padChars_eq 2 _ _ bmi1 bmi2)]
  rw [charListLt_cons_self]
  rw [charListLt_append (padChars 2 t1.second) (padChars 2 t2.second) _ _
      (by rw [padChars_length, padChars_length])]
  rw [padChars_lt 2 _ _ bs1 bs2]
  rw [decide_eq_decide.mpr (padChars_eq 2 _ _ bs1 bs2)]
  rw [micro_lt _ _ bus1 bus2]
  simp [natLexLt]
  all_goals infer_instance

/-! ## `ORDER BY date DESC` is a total transitive relation -/

theorem dateDesc_trans (a b c : Post) (hab : dateDesc a b) (hbc : dateDesc b c) :
    dateDesc a c := by
  unfold dateDesc strLt at *
  by_contra h
  have hac : charListLt a.date.data c.date.data = true := by
    cases hx : charListLt a.date.data c.date.data
    · exact absurd hx h
    · rfl
  cases hcb : charListLt c.date.data b.date.data with
  | true =>
    have := charListLt_trans hac hcb
    rw [this] at hab
    cases hab
  | false =>
    have heq := charListLt_connex hbc hcb
    rw [← heq] at hac
    rw [hac] at hab
    cases hab

theorem dateDesc_total (a b : Post) : dateDesc a b ∨ dateDesc b a := by
  unfold dateDesc strLt
  cases hab : charListLt a.date.data b.date.data
  · exact .inl rfl
  · cases hba : charListLt b.date.data a.date.data
    · exact .inr rfl
    · exfalso
      have := charListLt_trans hab hba
      rw [charListLt_irrefl] at this
      cases this

instance : IsTrans Post dateDesc := ⟨dateDesc_trans⟩

instance : IsTotal Post dateDesc := ⟨dateDesc_total⟩

/-- Claim C8: the report count equals the size of the window query's
result, the window query returns exactly the records with
`date > since` (as a permutation of the filtered store) sorted
most-recent-first, and on the ISO-8601 strings `utcnow().isoformat()`
produces, the byte comparison the SQL queries use agrees with
chronological order. -/
theorem C8_window_queries (store : List Post) (since : String) (t1 t2 : Timestamp)
    (h1 : t1.IsValid) (h2 : t2.IsValid) :
    countWindow store since = (queryWindow store since).length ∧
    (queryWindow store since).Perm
      (store.filter (fun r => strLt since r.date)) ∧
    List.Sorted dateDesc (queryWindow store since) ∧
    strLt (isoformat t1) (isoformat t2) = chronoLt t1 t2 := by
  refine ⟨?_, ?_, ?_, ?_⟩
  · unfold countWindow queryWindow
    exact (List.length_insertionSort _ _).symm
  · exact List.perm_insertionSort _ _
  · exact List.sorted_insertionSort _ _
  · exact iso_lt_eq_chronoLt t1 t2 h1 h2

/-- Witness for C8 at a concrete store, window bound, and two valid
instants distinguished only by the microsecond field. -/
theorem C8_window_queries_witness :
    (⟨2024, 1, 2, 3, 4, 5, 6⟩ : Timestamp).IsValid ∧
    (⟨2024, 1, 2, 3, 4, 5, 0⟩ : Timestamp).IsValid ∧
    (countWindow demoStore "2024-01-01T00:00:00"
        = (queryWindow demoStore "2024-01-01T00:00:00").length ∧
      (queryWindow demoStore "2024-01-01T00:00:00").Perm
        (demoStore.filter (fun r => strLt "2024-01-01T00:00:00" r.date)) ∧
      List.Sorted dateDesc (queryWindow demoStore "2024-01-01T00:00:00") ∧
      strLt (isoformat ⟨2024, 1, 2, 3, 4, 5, 6⟩)
          (isoformat ⟨2024, 1, 2, 3, 4, 5, 0⟩)
        = chronoLt ⟨2024, 1, 2, 3, 4, 5, 6⟩ ⟨2024, 1, 2, 3, 4, 5, 0⟩) :=
  ⟨by decide, by decide,
    C8_window_queries demoStore "2024-01-01T00:00:00"
      ⟨2024, 1, 2, 3, 4, 5, 6⟩ ⟨2024, 1, 2, 3, 4, 5, 0⟩ (by decide) (by decide)⟩

/-- Claim C9: the digest returns at most 5 rows; each returned row is a
store record inside the window; every returned row is at least as
recent as every window row the `LIMIT 5` cut off; and the reply is the
bulleted list of the returned rows' URLs under the fixed header. -/
theorem C9_digest_bound (store : List Post) (since : String) :
    (digest_rows store since).length ≤ 5 ∧
    (∀ r ∈ digest_rows store since, r ∈ store ∧ strLt since r.date = true) ∧
    (∀ a ∈ digest_rows store since, ∀ b ∈ (queryWindow store since).drop 5,
      dateDesc a b) ∧
    digest_text store since = "Топ-5 постов за неделю:\n" ++
      String.intercalate "\n"
        ((digest_rows store since).map (fun r => "- " ++ r.url)) := by
  refine ⟨?_, ?_, ?_, rfl⟩
  · unfold digest_rows
    exact List.length_take_le 5 _
  · intro r hr
    have hmem : r ∈ queryWindow store since := List.mem_of_mem_take hr
    have hf : r ∈ store.filter (fun x => strLt since x.date) := by
      unfold queryWindow at hmem
      rwa [List.mem_insertionSort] at hmem
    have := List.mem_filter.mp hf
    exact ⟨this.1, this.2⟩
  · intro a ha b hb
    exact List.Sorted.rel_of_mem_take_of_mem_drop
      (List.sorted_insertionSort dateDesc _) ha hb

end Bot
